import Mathlib

/-!
Verification of the daily log file handler (`dailylogfile/__init__.py`).

The handler is embedded shallowly:

* a calendar date is a day number (an `Int`); Python's
  `(today - creation).days` on `datetime.date` values is exactly integer
  subtraction of day numbers;
* the directory is a list of `LogFile` records, each carrying its path and
  the calendar date of its `st_ctime` (the creation date the sweeps read);
* side effects (open/close/compress/delete) are recorded in an `Action`
  trace returned next to the new directory contents;
* Python exceptions are embedded by failure-injection parameters: a
  predicate says at which file an I/O operation raises, and each fallible
  function returns the state reached when the exception propagates,
  together with the error.
-/

namespace Dlf

/-- One file on disk: its path and the calendar date of its `st_ctime`
(what `dt.datetime.fromtimestamp(file.stat().st_ctime).date()` returns). -/
structure LogFile where
  path : String
  creation : Int
  deriving DecidableEq, Repr

/-- Side effects performed by the handler, in order. -/
inductive Action where
  | closed (path : String)
  | opened (path : String)
  | compressedTo (src dst : String)
  | deleted (path : String)
  deriving DecidableEq, Repr

/-- Python truthiness of the `int | None` thresholds: `None` and `0` are
falsy, every positive value is truthy (the thresholds are documented as
non-negative). Both sweeps begin with `if not self.<threshold>: return`. -/
def truthy : Option Nat → Bool
  | none => false
  | some n => n != 0

/-- Matching of a path against the glob pattern `stem*ext`: the path starts
with `stem` and what follows ends with `ext` (`*` matches any run of
characters, including the empty one), i.e. the path is
`stem ++ mid ++ ext` for some `mid`. -/
def globMatch (stem ext path : String) : Bool :=
  stem.data.isPrefixOf path.data && ext.data.isSuffixOf (path.data.drop stem.data.length)

/-- CPython `PurePath.suffix` on a bare file name: the part of the name
from its last dot, provided that dot is neither the first nor the last
character; otherwise the empty string. -/
def pathSuffix (s : String) : String :=
  match s.data.reverse.indexOf? '.' with
  | none => ""
  | some j =>
    let i := s.data.length - 1 - j
    if 0 < i ∧ i < s.data.length - 1 then ⟨s.data.drop i⟩ else ""

/-- CPython `path.with_suffix('')` on a bare file name: the name with its
`pathSuffix` removed (the whole name when it has no suffix). This is
`self._logfile_prefix` of the handler. -/
def pathStem (s : String) : String :=
  ⟨s.data.take (s.data.length - (pathSuffix s).data.length)⟩

/-- `_file_name`: the active file name `{stem}_{fmt day}{ext}`, where `fmt`
is `strftime` with the configured `date_format`. -/
def fileName (stem : String) (fmt : Int → String) (ext : String) (d : Int) : String :=
  stem ++ "_" ++ fmt d ++ ext

/-- Opening a file in append mode (`FileHandler._open`): an existing file
is untouched, a missing one is created with creation date `today`. -/
def openFile (name : String) (today : Int) (files : List LogFile) : List LogFile :=
  if files.any (fun f => f.path == name) then files
  else files ++ [{ path := name, creation := today }]

/-- Body of the loop of `_compress_old_logfiles` over the directory
listing: a file matching `{stem}*{ext}` whose whole-day age exceeds the
threshold `n` is compressed to `{file}.bz2` (a fresh file created today)
and the original is deleted, in that order; every other file is left
untouched. -/
def sweepCompressGo (stem ext : String) (n : Nat) (today : Int) :
    List LogFile → List LogFile × List Action
  | [] => ([], [])
  | f :: fs =>
    let r := sweepCompressGo stem ext n today fs
    if globMatch stem ext f.path && decide ((n : Int) < today - f.creation) then
      ({ path := f.path ++ ".bz2", creation := today } :: r.1,
        .compressedTo f.path (f.path ++ ".bz2") :: .deleted f.path :: r.2)
    else
      (f :: r.1, r.2)

/-- `_compress_old_logfiles`: returns at once when `compress_after_days`
is falsy (`None` or `0`), otherwise sweeps the directory. -/
def sweepCompress (stem ext : String) (cad : Option Nat) (today : Int)
    (files : List LogFile) : List LogFile × List Action :=
  match cad with
  | none => (files, [])
  | some n => if n = 0 then (files, []) else sweepCompressGo stem ext n today files

/-- Body of the loop of `_handle_ageoff`: a file matching the candidate
pattern whose whole-day age strictly exceeds the threshold `m` is
unlinked; every other file is kept. -/
def sweepAgeoffGo (stem aext : String) (m : Nat) (today : Int) :
    List LogFile → List LogFile × List Action
  | [] => ([], [])
  | f :: fs =>
    let r := sweepAgeoffGo stem aext m today fs
    if globMatch stem aext f.path && decide ((m : Int) < today - f.creation) then
      (r.1, .deleted f.path :: r.2)
    else
      (f :: r.1, r.2)

/-- `_handle_ageoff`: returns at once when `max_history_days` is falsy
(`None` or `0`); otherwise the candidate pattern is
`{stem}*{ext}.bz2` when `compress_after_days` is truthy and
`{stem}*{ext}` when it is not, and matching files older than the
threshold are unlinked. -/
def sweepAgeoff (stem ext : String) (cad mhd : Option Nat) (today : Int)
    (files : List LogFile) : List LogFile × List Action :=
  match mhd with
  | none => (files, [])
  | some m =>
    if m = 0 then (files, [])
    else
      let aext := if truthy cad then ext ++ ".bz2" else ext
      sweepAgeoffGo stem aext m today files

/-- The mutable attributes of a `DailyLogFileHandler`. -/
structure HandlerState where
  logfileStem : String
  logfileExt : String
  dateFormat : Int → String
  compressAfterDays : Option Nat
  maxHistoryDays : Option Nat
  currentDay : Int
  baseFilename : String
  streamOpen : Bool

/-- Construction arguments of `DailyLogFileHandler.__init__`. -/
structure Config where
  logfile : String
  dateFormat : Int → String
  compressAfterDays : Option Nat
  maxHistoryDays : Option Nat
  delay : Bool

/-- `DailyLogFileHandler.__init__`: record today as the current day, split
the configured path into stem and extension (defaulting the extension to
`.log` when the path has none), open today's file through
`FileHandler.__init__` (deferred when `delay` is set), then run the
compression sweep followed by the ageoff sweep. -/
def initHandler (cfg : Config) (today : Int) (files : List LogFile) :
    HandlerState × List LogFile × List Action :=
  let stem := pathStem cfg.logfile
  let ext := if pathSuffix cfg.logfile = "" then ".log" else pathSuffix cfg.logfile
  let name := fileName stem cfg.dateFormat ext today
  let files1 := if cfg.delay then files else openFile name today files
  let openActs := if cfg.delay then ([] : List Action) else [.opened name]
  let r2 := sweepCompress stem ext cfg.compressAfterDays today files1
  let r3 := sweepAgeoff stem ext cfg.compressAfterDays cfg.maxHistoryDays today r2.1
  ({ logfileStem := stem, logfileExt := ext, dateFormat := cfg.dateFormat,
     compressAfterDays := cfg.compressAfterDays, maxHistoryDays := cfg.maxHistoryDays,
     currentDay := today, baseFilename := name, streamOpen := !cfg.delay },
   r3.1, openActs ++ r2.2 ++ r3.2)

/-- `_rollover`: if today equals `_current_day` return at once; otherwise
set `_current_day` to today, close the stream if one is open, recompute
`baseFilename` from the new day, open it, then run the compression sweep
followed by the ageoff sweep. -/
def rollover (s : HandlerState) (today : Int) (files : List LogFile) :
    HandlerState × List LogFile × List Action :=
  if today = s.currentDay then (s, files, [])
  else
    let closeActs := if s.streamOpen then [Action.closed s.baseFilename] else []
    let name := fileName s.logfileStem s.dateFormat s.logfileExt today
    let files1 := openFile name today files
    let r2 := sweepCompress s.logfileStem s.logfileExt s.compressAfterDays today files1
    let r3 :=
      sweepAgeoff s.logfileStem s.logfileExt s.compressAfterDays s.maxHistoryDays today r2.1
    ({ s with currentDay := today, baseFilename := name, streamOpen := true },
     r3.1, closeActs ++ [.opened name] ++ r2.2 ++ r3.2)

/-- Exceptions the handler's methods can let escape: closing the old
stream, opening the active file (`SinkOpenError`), or an I/O error inside
one of the two sweeps. -/
inductive Err where
  | closeFail
  | openFail
  | compressFail
  | ageoffFail
  deriving DecidableEq, Repr

/-- Loop of `_compress_old_logfiles` with failure injection: `fail p`
says that opening, reading, writing or deleting raises while file `p` is
being compressed. The loop has no handler, so the first exception
propagates at once: the failing file and every file after it are left
untouched, and the flag records that the sweep raised. -/
def sweepCompressEGo (stem ext : String) (n : Nat) (today : Int) (fail : String → Bool) :
    List LogFile → List LogFile × List Action × Bool
  | [] => ([], [], false)
  | f :: fs =>
    if globMatch stem ext f.path && decide ((n : Int) < today - f.creation) then
      if fail f.path then (f :: fs, [], true)
      else
        let r := sweepCompressEGo stem ext n today fail fs
        ({ path := f.path ++ ".bz2", creation := today } :: r.1,
          .compressedTo f.path (f.path ++ ".bz2") :: .deleted f.path :: r.2.1, r.2.2)
    else
      let r := sweepCompressEGo stem ext n today fail fs
      (f :: r.1, r.2.1, r.2.2)

/-- `_compress_old_logfiles` with failure injection. -/
def sweepCompressE (stem ext : String) (cad : Option Nat) (today : Int)
    (fail : String → Bool) (files : List LogFile) : List LogFile × List Action × Bool :=
  match cad with
  | none => (files, [], false)
  | some n => if n = 0 then (files, [], false) else sweepCompressEGo stem ext n today fail files

/-- Loop of `_handle_ageoff` with failure injection: `fail p` says that
`unlink` raises on file `p`. The first exception propagates, leaving the
failing file and every later file in place. -/
def sweepAgeoffEGo (stem aext : String) (m : Nat) (today : Int) (fail : String → Bool) :
    List LogFile → List LogFile × List Action × Bool
  | [] => ([], [], false)
  | f :: fs =>
    if globMatch stem aext f.path && decide ((m : Int) < today - f.creation) then
      if fail f.path then (f :: fs, [], true)
      else
        let r := sweepAgeoffEGo stem aext m today fail fs
        (r.1, .deleted f.path :: r.2.1, r.2.2)
    else
      let r := sweepAgeoffEGo stem aext m today fail fs
      (f :: r.1, r.2.1, r.2.2)

/-- `_handle_ageoff` with failure injection. -/
def sweepAgeoffE (stem ext : String) (cad mhd : Option Nat) (today : Int)
    (fail : String → Bool) (files : List LogFile) : List LogFile × List Action × Bool :=
  match mhd with
  | none => (files, [], false)
  | some m =>
    if m = 0 then (files, [], false)
    else
      let aext := if truthy cad then ext ++ ".bz2" else ext
      sweepAgeoffEGo stem aext m today fail files

/-- `DailyLogFileHandler.__init__` with failure injection. Attribute
assignments precede `FileHandler.__init__`, so the state fields are set
even when opening raises; an exception inside `_compress_old_logfiles`
propagates out of the constructor and `_handle_ageoff` never runs. -/
def initE (cfg : Config) (today : Int) (files : List LogFile)
    (openOk : Bool) (failC failD : String → Bool) :
    HandlerState × List LogFile × List Action × Option Err :=
  let stem := pathStem cfg.logfile
  let ext := if pathSuffix cfg.logfile = "" then ".log" else pathSuffix cfg.logfile
  let name := fileName stem cfg.dateFormat ext today
  let st : Bool → HandlerState := fun live =>
    { logfileStem := stem, logfileExt := ext, dateFormat := cfg.dateFormat,
      compressAfterDays := cfg.compressAfterDays, maxHistoryDays := cfg.maxHistoryDays,
      currentDay := today, baseFilename := name, streamOpen := live }
  if !cfg.delay && !openOk then (st false, files, [], some .openFail)
  else
    let files1 := if cfg.delay then files else openFile name today files
    let openActs := if cfg.delay then ([] : List Action) else [.opened name]
    let r2 := sweepCompressE stem ext cfg.compressAfterDays today failC files1
    if r2.2.2 then (st (!cfg.delay), r2.1, openActs ++ r2.2.1, some .compressFail)
    else
      let r3 :=
        sweepAgeoffE stem ext cfg.compressAfterDays cfg.maxHistoryDays today failD r2.1
      (st (!cfg.delay), r3.1, openActs ++ r2.2.1 ++ r3.2.1,
        if r3.2.2 then some .ageoffFail else none)

/-- `_rollover` with failure injection. `_current_day` is assigned before
the old stream is closed; `baseFilename` is reassigned before the new
file is opened; an exception at any of these steps propagates with the
mutations made so far kept; a sweep exception propagates after the state
was fully advanced. -/
def rolloverE (s : HandlerState) (today : Int) (files : List LogFile)
    (closeOk openOk : Bool) (failC failD : String → Bool) :
    HandlerState × List LogFile × List Action × Option Err :=
  if today = s.currentDay then (s, files, [], none)
  else
    let s1 := { s with currentDay := today }
    if s.streamOpen && !closeOk then (s1, files, [], some .closeFail)
    else
      let closeActs := if s.streamOpen then [Action.closed s.baseFilename] else []
      let name := fileName s.logfileStem s.dateFormat s.logfileExt today
      let s2 := { s1 with baseFilename := name, streamOpen := false }
      if !openOk then (s2, files, closeActs, some .openFail)
      else
        let s3 := { s2 with streamOpen := true }
        let files1 := openFile name today files
        let r2 :=
          sweepCompressE s.logfileStem s.logfileExt s.compressAfterDays today failC files1
        if r2.2.2 then (s3, r2.1, closeActs ++ [.opened name] ++ r2.2.1, some .compressFail)
        else
          let r3 :=
            sweepAgeoffE s.logfileStem s.logfileExt s.compressAfterDays s.maxHistoryDays today
              failD r2.1
          (s3, r3.1, closeActs ++ [.opened name] ++ r2.2.1 ++ r3.2.1,
            if r3.2.2 then some .ageoffFail else none)

/-! Characterizations of the sweep loops. -/

theorem globMatch_iff (stem ext path : String) :
    globMatch stem ext path = true ↔
      stem.data <+: path.data ∧ ext.data <:+ path.data.drop stem.data.length := by
  simp [globMatch, List.isPrefixOf_iff_prefix, List.isSuffixOf_iff_suffix]

theorem globMatch_sandwich (stem mid ext : String) :
    globMatch stem ext (stem ++ mid ++ ext) = true := by
  rw [globMatch_iff]
  constructor
  · rw [String.data_append, String.data_append, List.append_assoc]
    exact List.prefix_append _ _
  · rw [String.data_append, String.data_append, List.append_assoc, List.drop_left]
    exact List.suffix_append _ _

theorem sweepCompressGo_fst (stem ext : String) (n : Nat) (today : Int) (files : List LogFile) :
    (sweepCompressGo stem ext n today files).1 =
      files.map (fun f =>
        if globMatch stem ext f.path && decide ((n : Int) < today - f.creation)
        then { path := f.path ++ ".bz2", creation := today } else f) := by
  induction files with
  | nil => rfl
  | cons g gs ih =>
    simp only [sweepCompressGo, List.map_cons]
    split <;> simp [ih]

theorem sweepCompressGo_snd (stem ext : String) (n : Nat) (today : Int) (files : List LogFile) :
    (sweepCompressGo stem ext n today files).2 =
      (files.filter (fun f =>
        globMatch stem ext f.path && decide ((n : Int) < today - f.creation))).flatMap
        (fun f => [.compressedTo f.path (f.path ++ ".bz2"), .deleted f.path]) := by
  induction files with
  | nil => rfl
  | cons g gs ih =>
    simp only [sweepCompressGo, List.filter_cons]
    split <;> simp [ih]

theorem sweepAgeoffGo_fst (stem aext : String) (m : Nat) (today : Int) (files : List LogFile) :
    (sweepAgeoffGo stem aext m today files).1 =
      files.filter (fun f =>
        !(globMatch stem aext f.path && decide ((m : Int) < today - f.creation))) := by
  induction files with
  | nil => rfl
  | cons g gs ih =>
    simp only [sweepAgeoffGo, List.filter_cons]
    by_cases hb : (globMatch stem aext g.path && decide ((m : Int) < today - g.creation)) = true
    · simp [hb, ih]
    · simp only [Bool.not_eq_true] at hb
      simp [hb, ih]

theorem sweepAgeoffGo_snd (stem aext : String) (m : Nat) (today : Int) (files : List LogFile) :
    (sweepAgeoffGo stem aext m today files).2 =
      (files.filter (fun f =>
        globMatch stem aext f.path && decide ((m : Int) < today - f.creation))).map
        (fun f => .deleted f.path) := by
  induction files with
  | nil => rfl
  | cons g gs ih =>
    simp only [sweepAgeoffGo, List.filter_cons]
    by_cases hb : (globMatch stem aext g.path && decide ((m : Int) < today - g.creation)) = true
    · simp [hb, ih]
    · simp only [Bool.not_eq_true] at hb
      simp [hb, ih]


/-- C5: if the rollover check runs when today equals the current day it is
strictly a no-op (state, directory and action trace unchanged), and running
the check twice in a row on the same day performs the actions of at most one
open/close cycle: the second call does nothing. -/
theorem rollover_same_day_noop (s : HandlerState) (today : Int) (files : List LogFile) :
    (today = s.currentDay → rollover s today files = (s, files, [])) ∧
    rollover (rollover s today files).1 today (rollover s today files).2.1 =
      ((rollover s today files).1, (rollover s today files).2.1, []) := by
  have hday : (rollover s today files).1.currentDay = today := by
    by_cases h : today = s.currentDay
    · simp [rollover, h]
    · simp [rollover, h]
  refine ⟨fun h => by simp [rollover, h], ?_⟩
  rw [rollover, if_pos hday.symm]

/-- C5 (witness): the same-day no-op at a concrete handler state. -/
theorem rollover_same_day_noop_witness :
    rollover
      { logfileStem := "app", logfileExt := ".log", dateFormat := fun d => toString d,
        compressAfterDays := some 2, maxHistoryDays := some 30,
        currentDay := 10, baseFilename := "app_10.log", streamOpen := true }
      10 [] =
      ({ logfileStem := "app", logfileExt := ".log", dateFormat := fun d => toString d,
         compressAfterDays := some 2, maxHistoryDays := some 30,
         currentDay := 10, baseFilename := "app_10.log", streamOpen := true }, [], []) :=
  (rollover_same_day_noop _ 10 []).1 rfl

/-- C2 (counterexample): a present threshold of `0` does not make the sweep
run; with `compress_after_days = 0` an age-3 matching plain file is left
untouched and no action is taken, and with `max_history_days = 0` an age-7
matching compressed file is kept, contradicting the claim that every
present non-negative threshold (including `0`) runs the sweep and applies
its age comparison. -/
theorem threshold_zero_disables_counterexample :
    (sweepCompress "app" ".log" (some 0) 10 [⟨"app_7.log", 7⟩] =
        ([⟨"app_7.log", 7⟩], []) ∧
      globMatch "app" ".log" "app_7.log" = true ∧ (0 : Int) < 10 - 7) ∧
    (sweepAgeoff "app" ".log" (some 2) (some 0) 10 [⟨"app_3.log.bz2", 3⟩] =
        ([⟨"app_3.log.bz2", 3⟩], []) ∧
      globMatch "app" (".log" ++ ".bz2") "app_3.log.bz2" = true ∧ (0 : Int) < 10 - 3) := by
  decide

/-- C2 (amended): a sweep is a universal no-op precisely when its threshold
is falsy, i.e. absent (`None`) or `0`; for every threshold of at least one
day there is a directory the sweep changes. -/
theorem sweep_noop_iff_threshold_falsy (stem ext : String) (cad mhd : Option Nat) (today : Int) :
    ((∀ files, sweepCompress stem ext cad today files = (files, [])) ↔ truthy cad = false) ∧
    ((∀ files, sweepAgeoff stem ext cad mhd today files = (files, [])) ↔ truthy mhd = false) := by
  constructor
  · constructor
    · intro h
      cases cad with
      | none => rfl
      | some n =>
        by_contra hn
        rw [Bool.not_eq_false] at hn
        have h0 : n ≠ 0 := by simpa [truthy] using hn
        have hfile := h [⟨stem ++ "_" ++ ext, today - ((n : Int) + 1)⟩]
        rw [sweepCompress] at hfile
        simp only [if_neg h0] at hfile
        have hm2 : globMatch stem ext (stem ++ "_" ++ ext) = true :=
          globMatch_sandwich stem "_" ext
        have hlt : (n : Int) < today - (today - ((n : Int) + 1)) := by omega
        have hsnd := congrArg Prod.snd hfile
        simp [sweepCompressGo, hm2, hlt] at hsnd
    · intro h
      cases cad with
      | none => intro files; rfl
      | some n =>
        have h0 : n = 0 := by simpa [truthy] using h
        intro files
        simp [sweepCompress, h0]
  · constructor
    · intro h
      cases mhd with
      | none => rfl
      | some m =>
        by_contra hm
        rw [Bool.not_eq_false] at hm
        have h0 : m ≠ 0 := by simpa [truthy] using hm
        set aext := if truthy cad then ext ++ ".bz2" else ext with haext
        have hfile := h [⟨stem ++ "_" ++ aext, today - ((m : Int) + 1)⟩]
        rw [sweepAgeoff] at hfile
        simp only [if_neg h0, ← haext] at hfile
        have hm2 : globMatch stem aext (stem ++ "_" ++ aext) = true :=
          globMatch_sandwich stem "_" aext
        have hlt : (m : Int) < today - (today - ((m : Int) + 1)) := by omega
        have hfst := congrArg Prod.fst hfile
        simp [sweepAgeoffGo, hm2, hlt] at hfst
    · intro h
      cases mhd with
      | none => intro files; rfl
      | some m =>
        have h0 : m = 0 := by simpa [truthy] using h
        intro files
        simp [sweepAgeoff, h0]


/-- Deletion actions of the ageoff sweep with a truthy threshold: exactly
the matching, old-enough files are unlinked. -/
theorem deleted_mem_sweepAgeoff
    (stem ext : String) (cad : Option Nat) (m : Nat) (today : Int)
    (files : List LogFile) (p : String) (hm : m ≠ 0) :
    Action.deleted p ∈ (sweepAgeoff stem ext cad (some m) today files).2 ↔
      ∃ g ∈ files, g.path = p ∧
        globMatch stem (if truthy cad then ext ++ ".bz2" else ext) g.path = true ∧
        (m : Int) < today - g.creation := by
  rw [sweepAgeoff]
  simp only [if_neg hm]
  rw [sweepAgeoffGo_snd]
  simp only [List.mem_map, List.mem_filter, Bool.and_eq_true, decide_eq_true_eq]
  constructor
  · rintro ⟨g, ⟨hg, hmatch, hold⟩, heq⟩
    exact ⟨g, hg, by simpa using heq, hmatch, hold⟩
  · rintro ⟨g, hg, hp, hmatch, hold⟩
    exact ⟨g, ⟨hg, hmatch, hold⟩, by simp [hp]⟩

/-- Kept files of the ageoff sweep with a truthy threshold: a file survives
precisely when it is not a matching, old-enough candidate. -/
theorem mem_sweepAgeoff
    (stem ext : String) (cad : Option Nat) (m : Nat) (today : Int)
    (files : List LogFile) (f : LogFile) (hm : m ≠ 0) :
    f ∈ (sweepAgeoff stem ext cad (some m) today files).1 ↔
      f ∈ files ∧
        ¬(globMatch stem (if truthy cad then ext ++ ".bz2" else ext) f.path = true ∧
          (m : Int) < today - f.creation) := by
  rw [sweepAgeoff]
  simp only [if_neg hm]
  rw [sweepAgeoffGo_fst]
  simp only [List.mem_filter, Bool.not_eq_true', Bool.and_eq_false_iff,
    Bool.not_eq_true, decide_eq_false_iff_not]
  constructor
  · rintro ⟨hf, h⟩
    refine ⟨hf, ?_⟩
    rintro ⟨hmatch, hold⟩
    rcases h with h | h
    · rw [hmatch] at h; cases h
    · exact h hold
  · rintro ⟨hf, h⟩
    refine ⟨hf, ?_⟩
    by_cases hmatch : globMatch stem (if truthy cad then ext ++ ".bz2" else ext) f.path = true
    · exact Or.inr fun hold => h ⟨hmatch, hold⟩
    · exact Or.inl (by simpa using hmatch)

/-- C6: with a truthy `max_history_days`, the candidacy pattern of the
ageoff sweep depends on whether compression is enabled (truthy
`compress_after_days`): a deletion is performed exactly for files matching
`{stem}*{ext}.bz2` (and old enough) when compression is enabled, and
exactly for files matching `{stem}*{ext}` when it is disabled; all other
files are kept. -/
theorem ageoff_candidates_depend_on_compression
    (stem ext : String) (cad : Option Nat) (m : Nat) (today : Int)
    (files : List LogFile) (f : LogFile) (p : String) (hm : m ≠ 0) :
    (Action.deleted p ∈ (sweepAgeoff stem ext cad (some m) today files).2 ↔
      ∃ g ∈ files, g.path = p ∧
        globMatch stem (if truthy cad then ext ++ ".bz2" else ext) g.path = true ∧
        (m : Int) < today - g.creation) ∧
    (f ∈ (sweepAgeoff stem ext cad (some m) today files).1 ↔
      f ∈ files ∧
        ¬(globMatch stem (if truthy cad then ext ++ ".bz2" else ext) f.path = true ∧
          (m : Int) < today - f.creation)) :=
  ⟨deleted_mem_sweepAgeoff stem ext cad m today files p hm,
    mem_sweepAgeoff stem ext cad m today files f hm⟩

/-- C6 (witness): with compression enabled only the compressed file is
deleted; the old plain file is not a candidate and is kept. -/
theorem ageoff_candidates_depend_on_compression_witness :
    (Action.deleted "app_1.log.bz2" ∈
        (sweepAgeoff "app" ".log" (some 2) (some 3) 20
          [⟨"app_1.log", 1⟩, ⟨"app_1.log.bz2", 1⟩]).2 ↔
      ∃ g ∈ [(⟨"app_1.log", 1⟩ : LogFile), ⟨"app_1.log.bz2", 1⟩], g.path = "app_1.log.bz2" ∧
        globMatch "app" (if truthy (some 2) then ".log" ++ ".bz2" else ".log") g.path = true ∧
        (3 : Int) < 20 - g.creation) ∧
    ((⟨"app_1.log", 1⟩ : LogFile) ∈
        (sweepAgeoff "app" ".log" (some 2) (some 3) 20
          [⟨"app_1.log", 1⟩, ⟨"app_1.log.bz2", 1⟩]).1 ↔
      (⟨"app_1.log", 1⟩ : LogFile) ∈ [(⟨"app_1.log", 1⟩ : LogFile), ⟨"app_1.log.bz2", 1⟩] ∧
        ¬(globMatch "app" (if truthy (some 2) then ".log" ++ ".bz2" else ".log")
            "app_1.log" = true ∧ (3 : Int) < 20 - (1 : Int))) :=
  ageoff_candidates_depend_on_compression "app" ".log" (some 2) 3 20
    [⟨"app_1.log", 1⟩, ⟨"app_1.log.bz2", 1⟩] ⟨"app_1.log", 1⟩ "app_1.log.bz2" (by decide)


/-- C4 (counterexample): with `max_history_days = 0` present, a compressed
candidate file 9 whole days old is not deleted — the sweep is disabled by
Python truthiness — contradicting the claim that the ageoff sweep with
threshold `M` deletes every candidate of age strictly greater than `M`. -/
theorem ageoff_zero_keeps_counterexample :
    (sweepAgeoff "log" ".log" (some 1) (some 0) 20 [⟨"log_11.log.bz2", 11⟩]).1 =
        [⟨"log_11.log.bz2", 11⟩] ∧
      (sweepAgeoff "log" ".log" (some 1) (some 0) 20 [⟨"log_11.log.bz2", 11⟩]).2 = [] ∧
      globMatch "log" (".log" ++ ".bz2") "log_11.log.bz2" = true ∧ (0 : Int) < 20 - 11 := by
  decide

/-- C4 (amended, threshold at least one day): the ageoff sweep with a
present threshold `m ≥ 1` keeps a file precisely when it is not an
old-enough candidate (so deletion happens iff the whole-day age strictly
exceeds `m`); a candidate exactly `m` days old is kept; and the asymmetry
with the compression boundary is preserved: a matching plain file exactly
`n` days old is untouched by the compression sweep with threshold `n`. -/
theorem ageoff_strict_boundary (stem ext : String) (cad : Option Nat) (m : Nat)
    (today : Int) (files : List LogFile) (f : LogFile) (hm : 1 ≤ m) :
    (f ∈ (sweepAgeoff stem ext cad (some m) today files).1 ↔
      f ∈ files ∧
        ¬(globMatch stem (if truthy cad then ext ++ ".bz2" else ext) f.path = true ∧
          (m : Int) < today - f.creation)) ∧
    (f ∈ files → today - f.creation = (m : Int) →
      f ∈ (sweepAgeoff stem ext cad (some m) today files).1) ∧
    (∀ n : Nat, f ∈ files → today - f.creation = (n : Int) →
      f ∈ (sweepCompress stem ext (some n) today files).1) := by
  have hm0 : m ≠ 0 := by omega
  refine ⟨mem_sweepAgeoff stem ext cad m today files f hm0, ?_, ?_⟩
  · intro hf hage
    rw [mem_sweepAgeoff stem ext cad m today files f hm0]
    refine ⟨hf, ?_⟩
    rintro ⟨-, hold⟩
    omega
  · intro n hf hage
    by_cases hn : n = 0
    · simp [sweepCompress, hn, hf]
    · rw [sweepCompress]
      simp only [if_neg hn]
      rw [sweepCompressGo_fst]
      have himg :
          (if globMatch stem ext f.path && decide ((n : Int) < today - f.creation)
            then ({ path := f.path ++ ".bz2", creation := today } : LogFile) else f) = f := by
        have : ¬((n : Int) < today - f.creation) := by omega
        simp [this]
      exact List.mem_map.mpr ⟨f, hf, himg⟩

/-- C4 (witness): a compressed candidate exactly at the retention boundary
(age 5 with `max_history_days = 5`) is kept. -/
theorem ageoff_strict_boundary_witness :
    (⟨"app_25.log.bz2", 25⟩ : LogFile) ∈
      (sweepAgeoff "app" ".log" (some 2) (some 5) 30 [⟨"app_25.log.bz2", 25⟩]).1 :=
  (ageoff_strict_boundary "app" ".log" (some 2) 5 30 [⟨"app_25.log.bz2", 25⟩]
    ⟨"app_25.log.bz2", 25⟩ (by decide)).2.1 (by decide) (by decide)


/-- C3 (counterexample): with `compress_after_days = 0` present, a matching
plain file 8 whole days old is left in plain form and no compressed copy
is written, contradicting the claim that the compression sweep with
threshold `N` compresses every historical plain file whose age exceeds
`N`. -/
theorem compress_zero_skips_counterexample :
    (sweepCompress "svc" ".log" (some 0) 9 [⟨"svc_1.log", 1⟩]).1 = [⟨"svc_1.log", 1⟩] ∧
      (sweepCompress "svc" ".log" (some 0) 9 [⟨"svc_1.log", 1⟩]).2 = [] ∧
      globMatch "svc" ".log" "svc_1.log" = true ∧ (0 : Int) < 9 - 1 := by
  decide

/-- C3 (amended, threshold at least one day): during a compression sweep
with a present threshold `n ≥ 1`, a file with age at most `n` is kept
untouched; a matching plain file with age above `n` is replaced — a
compressed copy `{path}.bz2` created today appears, the original leaves
the directory, and the trace contains the compression write immediately
followed by the deletion, in that order; afterwards every file matching
the plain pattern has age at most `n`. -/
theorem compress_boundary_and_postcondition (stem ext : String) (n : Nat)
    (today : Int) (files : List LogFile) (f : LogFile) (hn : 1 ≤ n) :
    (f ∈ files → today - f.creation ≤ (n : Int) →
      f ∈ (sweepCompress stem ext (some n) today files).1) ∧
    (f ∈ files → globMatch stem ext f.path = true → (n : Int) < today - f.creation →
      ({ path := f.path ++ ".bz2", creation := today } : LogFile) ∈
          (sweepCompress stem ext (some n) today files).1 ∧
        f ∉ (sweepCompress stem ext (some n) today files).1 ∧
        ∃ l1 l2, (sweepCompress stem ext (some n) today files).2 =
          l1 ++ [Action.compressedTo f.path (f.path ++ ".bz2"), Action.deleted f.path] ++ l2) ∧
    (∀ g ∈ (sweepCompress stem ext (some n) today files).1,
      globMatch stem ext g.path = true → today - g.creation ≤ (n : Int)) := by
  have hn0 : n ≠ 0 := by omega
  have hrw : sweepCompress stem ext (some n) today files =
      sweepCompressGo stem ext n today files := by
    rw [sweepCompress]
    simp [hn0]
  rw [hrw]
  refine ⟨?_, ?_, ?_⟩
  · intro hf hage
    rw [sweepCompressGo_fst]
    have hlt : ¬((n : Int) < today - f.creation) := by omega
    exact List.mem_map.mpr ⟨f, hf, by simp [hlt]⟩
  · intro hf hmatch hold
    refine ⟨?_, ?_, ?_⟩
    · rw [sweepCompressGo_fst]
      exact List.mem_map.mpr ⟨f, hf, by simp [hmatch, hold]⟩
    · rw [sweepCompressGo_fst]
      intro hmem
      rcases List.mem_map.mp hmem with ⟨a, ha, heq⟩
      by_cases hc : (globMatch stem ext a.path && decide ((n : Int) < today - a.creation)) = true
      · rw [if_pos hc] at heq
        have hcr := congrArg LogFile.creation heq
        simp only at hcr
        omega
      · rw [if_neg hc] at heq
        rw [heq] at hc
        exact hc (by simp [hmatch, hold])
    · rw [sweepCompressGo_snd]
      have hfil : f ∈ files.filter
          (fun f => globMatch stem ext f.path && decide ((n : Int) < today - f.creation)) :=
        List.mem_filter.mpr ⟨hf, by simp [hmatch, hold]⟩
      obtain ⟨s, t, hst⟩ := List.append_of_mem hfil
      refine ⟨s.flatMap (fun f => [.compressedTo f.path (f.path ++ ".bz2"), .deleted f.path]),
        t.flatMap (fun f => [.compressedTo f.path (f.path ++ ".bz2"), .deleted f.path]), ?_⟩
      rw [hst]
      simp [List.flatMap_append, List.flatMap_cons, List.append_assoc]
  · intro g hg hmatch
    rw [sweepCompressGo_fst] at hg
    rcases List.mem_map.mp hg with ⟨a, ha, heq⟩
    by_cases hc : (globMatch stem ext a.path && decide ((n : Int) < today - a.creation)) = true
    · rw [if_pos hc] at heq
      have hcr := congrArg LogFile.creation heq
      simp only at hcr
      omega
    · rw [if_neg hc] at heq
      rw [heq] at hc
      simp only [Bool.and_eq_true, decide_eq_true_eq, not_and] at hc
      have := hc hmatch
      omega

/-- C3 (witness): a matching plain file of age 5 with threshold 2 is
replaced by its compressed copy created today. -/
theorem compress_boundary_witness :
    ({ path := "app_5.log.bz2", creation := 10 } : LogFile) ∈
      (sweepCompress "app" ".log" (some 2) 10 [⟨"app_5.log", 5⟩]).1 :=
  ((compress_boundary_and_postcondition "app" ".log" 2 10 [⟨"app_5.log", 5⟩]
    ⟨"app_5.log", 5⟩ (by decide)).2.1 (by decide) (by decide) (by decide)).1


/-- C9: with both thresholds enabled (truthy, hence at least 1), a file
created today — in particular the active file named for the current day,
which has age 0 — is in the glob match set but is never compressed and
never deleted by the sweeps, purely because of the age comparisons: the
compression sweep keeps it and records no action on its path, and the
ageoff sweep run on the compression sweep's output keeps it and records no
deletion of its path. -/
theorem active_file_never_swept (stem ext : String) (cad mhd : Option Nat)
    (today : Int) (files : List LogFile) (f : LogFile)
    (hcad : truthy cad = true) (hmhd : truthy mhd = true)
    (hf : f ∈ files) (hage : f.creation = today)
    (hu : ∀ g ∈ files, g.path = f.path → g = f) :
    f ∈ (sweepCompress stem ext cad today files).1 ∧
    (∀ dst, Action.compressedTo f.path dst ∉ (sweepCompress stem ext cad today files).2) ∧
    Action.deleted f.path ∉ (sweepCompress stem ext cad today files).2 ∧
    f ∈ (sweepAgeoff stem ext cad mhd today (sweepCompress stem ext cad today files).1).1 ∧
    Action.deleted f.path ∉
      (sweepAgeoff stem ext cad mhd today (sweepCompress stem ext cad today files).1).2 := by
  obtain ⟨n, hceq, hn0⟩ : ∃ n, cad = some n ∧ n ≠ 0 := by
    cases cad with
    | none => simp [truthy] at hcad
    | some n => exact ⟨n, rfl, by simpa [truthy] using hcad⟩
  obtain ⟨m, hmeq, hm0⟩ : ∃ m, mhd = some m ∧ m ≠ 0 := by
    cases mhd with
    | none => simp [truthy] at hmhd
    | some m => exact ⟨m, rfl, by simpa [truthy] using hmhd⟩
  subst hceq hmeq
  have hrw : sweepCompress stem ext (some n) today files =
      sweepCompressGo stem ext n today files := by
    rw [sweepCompress]
    simp [hn0]
  rw [hrw]
  have hyoung : ¬((n : Int) < today - f.creation) := by omega
  have hkept : f ∈ (sweepCompressGo stem ext n today files).1 := by
    rw [sweepCompressGo_fst]
    exact List.mem_map.mpr ⟨f, hf, by simp [hyoung]⟩
  have hnoact : ∀ a ∈ files.filter
      (fun g => globMatch stem ext g.path && decide ((n : Int) < today - g.creation)),
      a.path ≠ f.path := by
    intro a ha hap
    have ha2 := List.mem_filter.mp ha
    have haf : a = f := hu a ha2.1 hap
    rw [haf] at ha2
    simp only [Bool.and_eq_true, decide_eq_true_eq] at ha2
    exact hyoung ha2.2.2
  refine ⟨hkept, ?_, ?_, ?_, ?_⟩
  · intro dst hmem
    rw [sweepCompressGo_snd] at hmem
    rcases List.mem_flatMap.mp hmem with ⟨a, ha, hact⟩
    simp only [List.mem_cons, List.mem_singleton] at hact
    rcases hact with hact | hact | hact
    · have := (Action.compressedTo.injEq ..).mp hact.symm
      exact hnoact a ha this.1
    · cases hact
    · cases hact
  · intro hmem
    rw [sweepCompressGo_snd] at hmem
    rcases List.mem_flatMap.mp hmem with ⟨a, ha, hact⟩
    simp only [List.mem_cons, List.mem_singleton] at hact
    rcases hact with hact | hact | hact
    · cases hact
    · have := (Action.deleted.injEq ..).mp hact.symm
      exact hnoact a ha this
    · cases hact
  · rw [mem_sweepAgeoff _ _ _ _ _ _ _ hm0]
    refine ⟨hkept, ?_⟩
    rintro ⟨-, hold⟩
    omega
  · intro hmem
    rw [deleted_mem_sweepAgeoff _ _ _ _ _ _ _ hm0] at hmem
    obtain ⟨g, hg2, hp, -, hold2⟩ := hmem
    rw [sweepCompressGo_fst] at hg2
    rcases List.mem_map.mp hg2 with ⟨a, ha, heq⟩
    by_cases hc : (globMatch stem ext a.path && decide ((n : Int) < today - a.creation)) = true
    · rw [if_pos hc] at heq
      have hcr := congrArg LogFile.creation heq
      simp only at hcr
      omega
    · rw [if_neg hc] at heq
      have hgf : g = f := hu g (heq ▸ ha) hp
      rw [hgf] at hold2
      omega

/-- C9 (witness): with thresholds 2 and 30, the active file created today
survives both sweeps and no action touches its path. -/
theorem active_file_never_swept_witness :
    (⟨"api_9.log", 9⟩ : LogFile) ∈
        (sweepCompress "api" ".log" (some 2) 9 [⟨"api_9.log", 9⟩, ⟨"api_2.log", 2⟩]).1 ∧
      (∀ dst, Action.compressedTo "api_9.log" dst ∉
        (sweepCompress "api" ".log" (some 2) 9 [⟨"api_9.log", 9⟩, ⟨"api_2.log", 2⟩]).2) ∧
      Action.deleted "api_9.log" ∉
        (sweepCompress "api" ".log" (some 2) 9 [⟨"api_9.log", 9⟩, ⟨"api_2.log", 2⟩]).2 ∧
      (⟨"api_9.log", 9⟩ : LogFile) ∈
        (sweepAgeoff "api" ".log" (some 2) (some 30) 9
          (sweepCompress "api" ".log" (some 2) 9
            [⟨"api_9.log", 9⟩, ⟨"api_2.log", 2⟩]).1).1 ∧
      Action.deleted "api_9.log" ∉
        (sweepAgeoff "api" ".log" (some 2) (some 30) 9
          (sweepCompress "api" ".log" (some 2) 9
            [⟨"api_9.log", 9⟩, ⟨"api_2.log", 2⟩]).1).2 :=
  active_file_never_swept "api" ".log" (some 2) (some 30) 9
    [⟨"api_9.log", 9⟩, ⟨"api_2.log", 2⟩] ⟨"api_9.log", 9⟩
    (by decide) (by decide) (by decide) (by decide) (by decide)


/-- C7: on a day change the rollover sets `_current_day` to the new date,
closes the current stream when one is open, recomputes the active file
name from the new date, opens it, and then runs the compression sweep
followed by the ageoff sweep (the latter on the former's output), in that
order; a non-deferred construction opens today's file and then runs the
two sweeps in the same order; in both cases the resulting active file name
is the one computed for the resulting `_current_day`. -/
theorem rollover_and_init_sequence (s : HandlerState) (today : Int) (files : List LogFile)
    (cfg : Config) (h : today ≠ s.currentDay) (hdelay : cfg.delay = false) :
    (rollover s today files).1.currentDay = today ∧
    (rollover s today files).1.baseFilename =
      fileName s.logfileStem s.dateFormat s.logfileExt (rollover s today files).1.currentDay ∧
    (rollover s today files).1.streamOpen = true ∧
    (rollover s today files).2.2 =
      (if s.streamOpen then [Action.closed s.baseFilename] else []) ++
        [Action.opened (fileName s.logfileStem s.dateFormat s.logfileExt today)] ++
        (sweepCompress s.logfileStem s.logfileExt s.compressAfterDays today
          (openFile (fileName s.logfileStem s.dateFormat s.logfileExt today) today files)).2 ++
        (sweepAgeoff s.logfileStem s.logfileExt s.compressAfterDays s.maxHistoryDays today
          (sweepCompress s.logfileStem s.logfileExt s.compressAfterDays today
            (openFile (fileName s.logfileStem s.dateFormat s.logfileExt today) today
              files)).1).2 ∧
    (rollover s today files).2.1 =
      (sweepAgeoff s.logfileStem s.logfileExt s.compressAfterDays s.maxHistoryDays today
        (sweepCompress s.logfileStem s.logfileExt s.compressAfterDays today
          (openFile (fileName s.logfileStem s.dateFormat s.logfileExt today) today
            files)).1).1 ∧
    (initHandler cfg today files).1.currentDay = today ∧
    (initHandler cfg today files).1.baseFilename =
      fileName (pathStem cfg.logfile) cfg.dateFormat
        (if pathSuffix cfg.logfile = "" then ".log" else pathSuffix cfg.logfile)
        (initHandler cfg today files).1.currentDay ∧
    (initHandler cfg today files).2.2 =
      [Action.opened (fileName (pathStem cfg.logfile) cfg.dateFormat
          (if pathSuffix cfg.logfile = "" then ".log" else pathSuffix cfg.logfile) today)] ++
        (sweepCompress (pathStem cfg.logfile)
          (if pathSuffix cfg.logfile = "" then ".log" else pathSuffix cfg.logfile)
          cfg.compressAfterDays today
          (openFile (fileName (pathStem cfg.logfile) cfg.dateFormat
            (if pathSuffix cfg.logfile = "" then ".log" else pathSuffix cfg.logfile) today)
            today files)).2 ++
        (sweepAgeoff (pathStem cfg.logfile)
          (if pathSuffix cfg.logfile = "" then ".log" else pathSuffix cfg.logfile)
          cfg.compressAfterDays cfg.maxHistoryDays today
          (sweepCompress (pathStem cfg.logfile)
            (if pathSuffix cfg.logfile = "" then ".log" else pathSuffix cfg.logfile)
            cfg.compressAfterDays today
            (openFile (fileName (pathStem cfg.logfile) cfg.dateFormat
              (if pathSuffix cfg.logfile = "" then ".log" else pathSuffix cfg.logfile) today)
              today files)).1).2 := by
  refine ⟨?_, ?_, ?_, ?_, ?_, ?_, ?_, ?_⟩ <;>
    simp [rollover, initHandler, if_neg h, hdelay]

/-- C7 (witness): the rollover and construction facts at a concrete state
one day after the current one. -/
theorem rollover_and_init_sequence_witness :
    (rollover
        { logfileStem := "job", logfileExt := ".log", dateFormat := fun d => toString d,
          compressAfterDays := some 2, maxHistoryDays := some 30,
          currentDay := 4, baseFilename := "job_4.log", streamOpen := true }
        5 []).1.currentDay = 5 ∧
      (initHandler
        { logfile := "job.log", dateFormat := fun d => toString d,
          compressAfterDays := some 2, maxHistoryDays := some 30, delay := false }
        5 []).1.currentDay = 5 :=
  ⟨(rollover_and_init_sequence
      { logfileStem := "job", logfileExt := ".log", dateFormat := fun d => toString d,
        compressAfterDays := some 2, maxHistoryDays := some 30,
        currentDay := 4, baseFilename := "job_4.log", streamOpen := true }
      5 []
      { logfile := "job.log", dateFormat := fun d => toString d,
        compressAfterDays := some 2, maxHistoryDays := some 30, delay := false }
      (by decide) rfl).1,
    (rollover_and_init_sequence
      { logfileStem := "job", logfileExt := ".log", dateFormat := fun d => toString d,
        compressAfterDays := some 2, maxHistoryDays := some 30,
        currentDay := 4, baseFilename := "job_4.log", streamOpen := true }
      5 []
      { logfile := "job.log", dateFormat := fun d => toString d,
        compressAfterDays := some 2, maxHistoryDays := some 30, delay := false }
      (by decide) rfl).2.2.2.2.2.1⟩


/-- Strings with equal character data are equal. -/
theorem data_inj {s t : String} (h : s.data = t.data) : s = t := by
  cases s
  cases t
  exact congrArg String.mk h

/-- An injective rendering of a day number, used to instantiate a date
format of daily granularity: a sign character followed by the absolute
value in unary. -/
def dateStr (d : Int) : String :=
  ⟨(if 0 ≤ d then 'p' else 'n') :: List.replicate d.natAbs 'x'⟩

theorem dateStr_injective : Function.Injective dateStr := by
  intro a b h
  have hd : ((if 0 ≤ a then 'p' else 'n') :: List.replicate a.natAbs 'x') =
      ((if 0 ≤ b then 'p' else 'n') :: List.replicate b.natAbs 'x') :=
    congrArg String.data h
  injection hd with h1 h2
  have hlen := congrArg List.length h2
  simp only [List.length_replicate] at hlen
  by_cases ha : 0 ≤ a <;> by_cases hb : 0 ≤ b <;> simp only [ha, hb, if_pos, if_neg] at h1 <;>
    first
      | omega
      | exact absurd h1 (by decide)

/-- C8: a constructed handler records the configured path's extension,
defaulting to `.log` when the path has none, and its active file name is
`{stem}_{dateFormat currentDay}{ext}`; for a date format of daily
granularity (injective on day numbers), distinct days yield distinct
active file names. -/
theorem active_name_formula_and_injective (cfg : Config) (today : Int)
    (files : List LogFile) (d1 d2 : Int)
    (hinj : Function.Injective cfg.dateFormat) (hne : d1 ≠ d2) :
    (initHandler cfg today files).1.logfileExt =
      (if pathSuffix cfg.logfile = "" then ".log" else pathSuffix cfg.logfile) ∧
    (initHandler cfg today files).1.baseFilename =
      pathStem cfg.logfile ++ "_" ++ cfg.dateFormat today ++
        (if pathSuffix cfg.logfile = "" then ".log" else pathSuffix cfg.logfile) ∧
    fileName (pathStem cfg.logfile) cfg.dateFormat
        (if pathSuffix cfg.logfile = "" then ".log" else pathSuffix cfg.logfile) d1 ≠
      fileName (pathStem cfg.logfile) cfg.dateFormat
        (if pathSuffix cfg.logfile = "" then ".log" else pathSuffix cfg.logfile) d2 := by
  refine ⟨rfl, rfl, ?_⟩
  intro heq
  apply hne
  apply hinj
  apply data_inj
  rw [fileName, fileName] at heq
  have hdata := congrArg String.data heq
  rw [String.data_append, String.data_append, String.data_append, String.data_append,
    String.data_append, String.data_append] at hdata
  exact List.append_cancel_left (List.append_cancel_right hdata)

/-- C8 (witness): with the injective unary date format, the extension
recorded for `app.log` is `.log` and the file names for days 3 and 4
differ. -/
theorem active_name_formula_and_injective_witness :
    (initHandler
        { logfile := "app.log", dateFormat := dateStr, compressAfterDays := some 2,
          maxHistoryDays := some 30, delay := false } 5 []).1.logfileExt =
      (if pathSuffix "app.log" = "" then ".log" else pathSuffix "app.log") ∧
    (initHandler
        { logfile := "app.log", dateFormat := dateStr, compressAfterDays := some 2,
          maxHistoryDays := some 30, delay := false } 5 []).1.baseFilename =
      pathStem "app.log" ++ "_" ++ dateStr 5 ++
        (if pathSuffix "app.log" = "" then ".log" else pathSuffix "app.log") ∧
    fileName (pathStem "app.log") dateStr
        (if pathSuffix "app.log" = "" then ".log" else pathSuffix "app.log") 3 ≠
      fileName (pathStem "app.log") dateStr
        (if pathSuffix "app.log" = "" then ".log" else pathSuffix "app.log") 4 :=
  active_name_formula_and_injective
    { logfile := "app.log", dateFormat := dateStr, compressAfterDays := some 2,
      maxHistoryDays := some 30, delay := false } 5 [] 3 4 dateStr_injective (by decide)


/-- C2 (witness): with a present threshold of zero each sweep leaves a
concrete directory unchanged. -/
theorem sweep_noop_iff_threshold_falsy_witness :
    sweepCompress "a" ".log" (some 0) 0 [⟨"a_x.log", -3⟩] = ([⟨"a_x.log", -3⟩], []) ∧
      sweepAgeoff "a" ".log" (some 0) (some 0) 0 [⟨"a_x.log", -3⟩] = ([⟨"a_x.log", -3⟩], []) :=
  ⟨(sweep_noop_iff_threshold_falsy "a" ".log" (some 0) (some 0) 0).1.mpr (by decide)
      [⟨"a_x.log", -3⟩],
    (sweep_noop_iff_threshold_falsy "a" ".log" (some 0) (some 0) 0).2.mpr (by decide)
      [⟨"a_x.log", -3⟩]⟩

/-- C10: rollover is not atomic on error. When the date has changed,
`_current_day` is advanced before the old stream is closed and before the
new file is opened: if closing raises, the state keeps the new day with
the old `baseFilename`; if opening raises, the state keeps the new day and
the recomputed `baseFilename` with no live stream. In both cases a
subsequent rollover check on the same day returns at once — no retry of
the open, no actions, no error. -/
theorem rollover_not_atomic (s : HandlerState) (today : Int) (files files2 : List LogFile)
    (failC failD : String → Bool) (h : today ≠ s.currentDay) :
    (s.streamOpen = true →
      (rolloverE s today files false true failC failD).1.currentDay = today ∧
      (rolloverE s today files false true failC failD).2.2.2 = some Err.closeFail ∧
      (rolloverE s today files false true failC failD).1.baseFilename = s.baseFilename ∧
      rolloverE (rolloverE s today files false true failC failD).1 today files2 false true
          failC failD =
        ((rolloverE s today files false true failC failD).1, files2, [], none)) ∧
    ((rolloverE s today files true false failC failD).1.currentDay = today ∧
      (rolloverE s today files true false failC failD).2.2.2 = some Err.openFail ∧
      (rolloverE s today files true false failC failD).1.baseFilename =
        fileName s.logfileStem s.dateFormat s.logfileExt today ∧
      (rolloverE s today files true false failC failD).1.streamOpen = false ∧
      rolloverE (rolloverE s today files true false failC failD).1 today files2 true false
          failC failD =
        ((rolloverE s today files true false failC failD).1, files2, [], none)) := by
  constructor
  · intro hso
    refine ⟨?_, ?_, ?_, ?_⟩ <;> simp [rolloverE, if_neg h, hso]
  · refine ⟨?_, ?_, ?_, ?_, ?_⟩ <;> simp [rolloverE, if_neg h]

/-- C10 (witness): at a concrete state, a failed close leaves the day
advanced with the error surfaced, and the next same-day check is a no-op. -/
theorem rollover_not_atomic_witness :
    (rolloverE
        { logfileStem := "app", logfileExt := ".log", dateFormat := fun d => toString d,
          compressAfterDays := some 2, maxHistoryDays := some 30,
          currentDay := 7, baseFilename := "app_7.log", streamOpen := true }
        8 [] false true (fun _ => false) (fun _ => false)).1.currentDay = 8 ∧
      (rolloverE
        { logfileStem := "app", logfileExt := ".log", dateFormat := fun d => toString d,
          compressAfterDays := some 2, maxHistoryDays := some 30,
          currentDay := 7, baseFilename := "app_7.log", streamOpen := true }
        8 [] false true (fun _ => false) (fun _ => false)).2.2.2 = some Err.closeFail :=
  ⟨((rollover_not_atomic
      { logfileStem := "app", logfileExt := ".log", dateFormat := fun d => toString d,
        compressAfterDays := some 2, maxHistoryDays := some 30,
        currentDay := 7, baseFilename := "app_7.log", streamOpen := true }
      8 [] [] (fun _ => false) (fun _ => false) (by decide)).1 rfl).1,
    ((rollover_not_atomic
      { logfileStem := "app", logfileExt := ".log", dateFormat := fun d => toString d,
        compressAfterDays := some 2, maxHistoryDays := some 30,
        currentDay := 7, baseFilename := "app_7.log", streamOpen := true }
      8 [] [] (fun _ => false) (fun _ => false) (by decide)).1 rfl).2.1⟩

/-- C1 (counterexample): an error while compressing the first old file
aborts the sweep — the second old file, though matching and old enough, is
left untouched with no action recorded — and the error propagates out of
construction, contradicting the claim that per-file errors do not abort
the sweep and never fail construction. -/
theorem sweep_error_counterexample :
    (initE
        { logfile := "app.log", dateFormat := fun _ => "10", compressAfterDays := some 2,
          maxHistoryDays := some 30, delay := false }
        10 [⟨"app_5.log", 5⟩, ⟨"app_6.log", 6⟩] true
        (fun p => p == "app_5.log") (fun _ => false)).2.2.2 = some Err.compressFail ∧
      (⟨"app_6.log", 6⟩ : LogFile) ∈
        (initE
          { logfile := "app.log", dateFormat := fun _ => "10", compressAfterDays := some 2,
            maxHistoryDays := some 30, delay := false }
          10 [⟨"app_5.log", 5⟩, ⟨"app_6.log", 6⟩] true
          (fun p => p == "app_5.log") (fun _ => false)).2.1 ∧
      Action.compressedTo "app_6.log" "app_6.log.bz2" ∉
        (initE
          { logfile := "app.log", dateFormat := fun _ => "10", compressAfterDays := some 2,
            maxHistoryDays := some 30, delay := false }
          10 [⟨"app_5.log", 5⟩, ⟨"app_6.log", 6⟩] true
          (fun p => p == "app_5.log") (fun _ => false)).2.2.1 ∧
      globMatch "app" ".log" "app_6.log" = true ∧ (2 : Int) < 10 - 6 := by
  decide

/-- C1 (amended): the sweeps have no per-file error handling. An exception
raised while processing one file aborts its sweep at once — the failing
file and every file after it are left untouched and no further action is
recorded — and the exception propagates: it fails a non-deferred
construction and it fails a rollover whose close and open succeeded. -/
theorem sweep_error_aborts_and_propagates
    (stem ext : String) (n m : Nat) (today : Int) (failC failD : String → Bool)
    (f g : LogFile) (fs gs files : List LogFile) (cfg : Config) (s : HandlerState)
    (cad : Option Nat) :
    (n ≠ 0 → globMatch stem ext f.path = true → (n : Int) < today - f.creation →
      failC f.path = true →
      sweepCompressE stem ext (some n) today failC (f :: fs) = (f :: fs, [], true)) ∧
    (m ≠ 0 → globMatch stem (if truthy cad then ext ++ ".bz2" else ext) g.path = true →
      (m : Int) < today - g.creation → failD g.path = true →
      sweepAgeoffE stem ext cad (some m) today failD (g :: gs) = (g :: gs, [], true)) ∧
    (cfg.delay = false →
      (sweepCompressE (pathStem cfg.logfile)
        (if pathSuffix cfg.logfile = "" then ".log" else pathSuffix cfg.logfile)
        cfg.compressAfterDays today failC
        (openFile (fileName (pathStem cfg.logfile) cfg.dateFormat
          (if pathSuffix cfg.logfile = "" then ".log" else pathSuffix cfg.logfile) today)
          today files)).2.2 = true →
      (initE cfg today files true failC failD).2.2.2 = some Err.compressFail) ∧
    (today ≠ s.currentDay →
      (sweepCompressE s.logfileStem s.logfileExt s.compressAfterDays today failC
        (openFile (fileName s.logfileStem s.dateFormat s.logfileExt today) today
          files)).2.2 = true →
      (rolloverE s today files true true failC failD).2.2.2 = some Err.compressFail) := by
  refine ⟨?_, ?_, ?_, ?_⟩
  · intro hn hm hold hf
    rw [sweepCompressE]
    simp [if_neg hn, sweepCompressEGo, hm, hold, hf]
  · intro hm0 hm hold hg
    rw [sweepAgeoffE]
    simp [if_neg hm0, sweepAgeoffEGo, hm, hold, hg]
  · intro hdelay hsw
    simp [initE, hdelay, hsw]
  · intro hne hsw
    simp [rolloverE, if_neg hne, hsw]

/-- C1 (witness): the abort and propagation facts at concrete inputs. -/
theorem sweep_error_aborts_and_propagates_witness :
    sweepCompressE "w" ".log" (some 1) 9 (fun p => p == "w_3.log")
        [⟨"w_3.log", 3⟩, ⟨"w_4.log", 4⟩] = ([⟨"w_3.log", 3⟩, ⟨"w_4.log", 4⟩], [], true) ∧
      sweepAgeoffE "w" ".log" (some 1) (some 1) 9 (fun p => p == "w_3.log.bz2")
        [⟨"w_3.log.bz2", 3⟩] = ([⟨"w_3.log.bz2", 3⟩], [], true) :=
  ⟨(sweep_error_aborts_and_propagates "w" ".log" 1 1 9 (fun p => p == "w_3.log")
      (fun p => p == "w_3.log.bz2") ⟨"w_3.log", 3⟩ ⟨"w_3.log.bz2", 3⟩ [⟨"w_4.log", 4⟩] [] []
      { logfile := "w.log", dateFormat := fun _ => "9", compressAfterDays := some 1,
        maxHistoryDays := some 1, delay := false }
      { logfileStem := "w", logfileExt := ".log", dateFormat := fun _ => "9",
        compressAfterDays := some 1, maxHistoryDays := some 1,
        currentDay := 9, baseFilename := "w_9.log", streamOpen := true }
      (some 1)).1
      (by decide) (by decide) (by decide) (by decide),
    (sweep_error_aborts_and_propagates "w" ".log" 1 1 9 (fun p => p == "w_3.log")
      (fun p => p == "w_3.log.bz2") ⟨"w_3.log", 3⟩ ⟨"w_3.log.bz2", 3⟩ [⟨"w_4.log", 4⟩] [] []
      { logfile := "w.log", dateFormat := fun _ => "9", compressAfterDays := some 1,
        maxHistoryDays := some 1, delay := false }
      { logfileStem := "w", logfileExt := ".log", dateFormat := fun _ => "9",
        compressAfterDays := some 1, maxHistoryDays := some 1,
        currentDay := 9, baseFilename := "w_9.log", streamOpen := true }
      (some 1)).2.1
      (by decide) (by decide) (by decide) (by decide)⟩

end Dlf
